import Mathlib

/-!
# EDDN listener — verification of the ingestion pipeline

Shallow embedding of `eddn_listener.py`: the carrier-station filter, the
system-event filter, timestamp normalization (`datetime.strptime` with format
`%Y-%m-%dT%H:%M:%SZ` followed by `strftime('%Y-%m-%d %H:%M:%S')`), the
SQLite name lookup (`REPLACE(name, ' ', '') LIKE ?`), the per-commodity
`UPDATE` statements, the system-row `UPDATE`, message classification, and the
worker loop.  The trading store is modelled as lists of rows in table order;
`UPDATE ... WHERE` becomes a map over the rows, `SELECT ... fetchone` the
first matching row.
-/

namespace EDDN

/-- ASCII lower-casing, as SQLite's default `LIKE` applies to ASCII only. -/
def lowerAscii (c : Char) : Char :=
  if 'A' ≤ c ∧ c ≤ 'Z' then Char.ofNat (c.toNat + 32) else c

/-- ASCII alphanumeric, the character class `[a-zA-Z0-9]` of the carrier regex. -/
def isAlnumAscii (c : Char) : Bool :=
  ('a' ≤ c && c ≤ 'z') || ('A' ≤ c && c ≤ 'Z') || ('0' ≤ c && c ≤ '9')

/-- `REPLACE(name, ' ', '')` — remove every space character. -/
def stripSpaces (s : String) : String :=
  ⟨s.data.filter (fun c => c ≠ ' ')⟩

/-- SQLite `LIKE`, with a fuel argument so the recursion is structural:
`%` matches any run of characters, `_` any single character, every other
character matches itself ASCII-case-insensitively.  Second argument is the
pattern, third the subject.  Every recursive call shrinks pattern length
plus subject length, so any fuel exceeding that sum gives the fixpoint. -/
def likeMatchF : Nat → List Char → List Char → Bool
  | 0, _, _ => false
  | _ + 1, [], s => s.isEmpty
  | fuel + 1, p :: ps, s =>
    if p = '%' then
      match s with
      | [] => likeMatchF fuel ps []
      | c :: cs => likeMatchF fuel ps (c :: cs) || likeMatchF fuel ('%' :: ps) cs
    else
      match s with
      | [] => false
      | c :: cs =>
        if p = '_' then likeMatchF fuel ps cs
        else (lowerAscii p == lowerAscii c) && likeMatchF fuel ps cs

/-- SQLite `LIKE` with pattern first, subject second. -/
def likeMatch (p s : List Char) : Bool :=
  likeMatchF (p.length + s.length + 1) p s

/-- Substring containment, Python's `sub in s`. -/
def strContains (s sub : String) : Bool :=
  (List.range (s.data.length + 1)).any
    (fun i => sub.data.isPrefixOf (s.data.drop i))

/-- Value of an ASCII digit. -/
def digitVal (c : Char) : Option Nat :=
  if '0' ≤ c ∧ c ≤ '9' then some (c.toNat - 48) else none

/-- A parsed timestamp, the fields `datetime.strptime` extracts. -/
structure DT where
  year : Nat
  month : Nat
  day : Nat
  hour : Nat
  minute : Nat
  second : Nat
deriving DecidableEq, Repr

/-- `%Y`: exactly four digits. -/
def parse4 (l : List Char) : Option (Nat × List Char) :=
  match l with
  | a :: b :: c :: d :: rest =>
    match digitVal a, digitVal b, digitVal c, digitVal d with
    | some x, some y, some z, some w => some (1000*x + 100*y + 10*z + w, rest)
    | _, _, _, _ => none
  | _ => none

/-- A one-or-two-digit numeric field of `strptime`, regex-alternation order:
the two-digit reading is preferred, the one-digit reading kept as fallback.
`v2` and `v1` are the value constraints of the two- and one-digit
alternatives of the field's regex. -/
def fieldCands (v2 v1 : Nat → Bool) (l : List Char) : List (Nat × List Char) :=
  match l with
  | [] => []
  | c1 :: rest1 =>
    match digitVal c1 with
    | none => []
    | some d1 =>
      let one := if v1 d1 then [(d1, rest1)] else []
      match rest1 with
      | [] => one
      | c2 :: rest2 =>
        match digitVal c2 with
        | none => one
        | some d2 =>
          (if v2 (10*d1 + d2) then [(10*d1 + d2, rest2)] else []) ++ one

/-- A literal character of the format string. -/
def lit (c : Char) : List Char → Option (List Char)
  | [] => none
  | x :: rest => if x = c then some rest else none

/-- A letter literal of the format string, matched ASCII-case-insensitively:
`_strptime.TimeRE.compile` compiles the format's regex with `re.IGNORECASE`,
so the `T` and `Z` of the format also match `t` and `z` (no character beyond
the ASCII case pair case-folds to `t` or `z`). -/
def litCI (c : Char) : List Char → Option (List Char)
  | [] => none
  | x :: rest => if lowerAscii x = lowerAscii c then some rest else none

/-- Gregorian leap year. -/
def isLeap (y : Nat) : Bool :=
  y % 4 == 0 && (y % 100 != 0 || y % 400 == 0)

/-- Days in a month, as `datetime` validates the day field. -/
def daysInMonth (y m : Nat) : Nat :=
  if m = 2 then (if isLeap y then 29 else 28)
  else if m = 4 ∨ m = 6 ∨ m = 9 ∨ m = 11 then 30
  else 31

/-- The `datetime(...)` constructor's validation: year at least 1, day within
the month, second at most 59 (the `%S` regex admits 60 and 61, the
constructor rejects them). -/
def mkDT (y mo d h mi s : Nat) : Option DT :=
  if 1 ≤ y ∧ 1 ≤ d ∧ d ≤ daysInMonth y mo ∧ s ≤ 59 then
    some ⟨y, mo, d, h, mi, s⟩
  else none

/-- `datetime.strptime(ts, '%Y-%m-%dT%H:%M:%SZ')`.  `%Y` is four digits;
`%m` is `1[0-2]|0[1-9]|[1-9]` (1–12, no `00`); `%d` is
`3[0-1]|[1-2]\d|0[1-9]|[1-9]` (1–31, no `00`); `%H` is `2[0-3]|[0-1]\d|\d`;
`%M` is `[0-5]\d|\d`; `%S` is `6[0-1]|[0-5]\d|\d`; the literals `-` and `:`
match themselves, `T` and `Z` match case-insensitively (the format regex is
compiled with `re.IGNORECASE`), and the whole string must be consumed.
Digits are modelled as ASCII `0`–`9`: this embedding covers ASCII
timestamps exactly; CPython's `\d` (where the format's regex uses it rather
than an explicit `[0-9]`-style range) additionally admits non-ASCII Unicode
decimal digits, which are outside the embedding — theorems about rejected
timestamps therefore restrict the timestamp to ASCII. -/
def parseWireTS (ts : String) : Option DT :=
  match parse4 ts.data with
  | none => none
  | some (y, r0) =>
    match lit '-' r0 with
    | none => none
    | some r1 =>
      (fieldCands (fun n => 1 ≤ n && n ≤ 12) (fun n => 1 ≤ n && n ≤ 9) r1).findSome?
        (fun mor => match lit '-' mor.2 with
          | none => none
          | some r3 =>
            (fieldCands (fun n => 1 ≤ n && n ≤ 31) (fun n => 1 ≤ n && n ≤ 9) r3).findSome?
              (fun dr => match litCI 'T' dr.2 with
                | none => none
                | some r5 =>
                  (fieldCands (fun n => n ≤ 23) (fun n => n ≤ 9) r5).findSome?
                    (fun hr => match lit ':' hr.2 with
                      | none => none
                      | some r7 =>
                        (fieldCands (fun n => n ≤ 59) (fun n => n ≤ 9) r7).findSome?
                          (fun mir => match lit ':' mir.2 with
                            | none => none
                            | some r9 =>
                              (fieldCands (fun n => n ≤ 61) (fun n => n ≤ 9) r9).findSome?
                                (fun sr => match litCI 'Z' sr.2 with
                                  | none => none
                                  | some r11 =>
                                    match r11 with
                                    | [] => mkDT y mor.1 dr.1 hr.1 mir.1 sr.1
                                    | _ :: _ => none)))))

/-- Two-digit zero padding of `strftime`'s `%m`, `%d`, `%H`, `%M`, `%S`. -/
def pad2 (n : Nat) : String :=
  if n < 10 then "0" ++ toString n else toString n

/-- `strftime('%Y-%m-%d %H:%M:%S')`; `%Y` is printed without padding
(glibc behaviour), the other fields zero-padded to two digits. -/
def fmtDT (t : DT) : String :=
  toString t.year ++ "-" ++ pad2 t.month ++ "-" ++ pad2 t.day ++ " " ++
    pad2 t.hour ++ ":" ++ pad2 t.minute ++ ":" ++ pad2 t.second

/-- `datetime.strptime` then `strftime`, the whole normalization. -/
def normalizeTS (ts : String) : Option String :=
  (parseWireTS ts).map fmtDT

/-! ## Data model -/

/-- A commodity record of a market message (the fields the pipeline reads). -/
structure Commodity where
  name : String
  meanPrice : Int
  buyPrice : Int
  stock : Int
  sellPrice : Int
  demand : Int
deriving DecidableEq, Repr

/-- A commodity market message (the fields the pipeline reads). -/
structure CommodityMessage where
  systemName : String
  stationName : String
  marketId : Int
  timestamp : String
  commodities : List Commodity
deriving DecidableEq, Repr

/-- An FSDJump journal message (the fields the pipeline reads); `Population`
is `None` when the wire carries an explicit null, `ControllingPower` and
`PowerplayState` are optional. -/
structure FSDJumpMessage where
  StarSystem : String
  timestamp : Option String
  Population : Option Int
  ControllingPower : Option String
  PowerplayState : Option String
deriving DecidableEq, Repr

/-- A row of the `Item` table. -/
structure Item where
  item_id : Int
  name : String
  avg_price : Int
deriving DecidableEq, Repr

/-- A row of the `StationItem` table. -/
structure StationItem where
  station_id : Int
  item_id : Int
  demand_price : Int
  demand_units : Int
  demand_level : Int
  supply_price : Int
  supply_units : Int
  supply_level : Int
  modified : String
  from_live : Int
deriving DecidableEq, Repr

/-- A row of the `System` table; `power` is nullable. -/
structure SystemRow where
  name : String
  power : Option String
  modified : String
deriving DecidableEq, Repr

/-- The trading store, each table as its rows in table order. -/
structure TradeDB where
  items : List Item
  stationItems : List StationItem
  systems : List SystemRow
deriving DecidableEq, Repr

/-! ## Operations -/

/-- The carrier-station check: `re.match(r'^[a-zA-Z0-9]{3}-[a-zA-Z0-9]{3}$', s)`.
Python's `$` matches at the end of the string or just before a newline that
ends the string, so a single trailing newline is also accepted. -/
def is_carrier (s : String) : Bool :=
  match s.data with
  | [a, b, c, h, d, e, f] =>
    isAlnumAscii a && isAlnumAscii b && isAlnumAscii c && h == '-' &&
      isAlnumAscii d && isAlnumAscii e && isAlnumAscii f
  | [a, b, c, h, d, e, f, n] =>
    isAlnumAscii a && isAlnumAscii b && isAlnumAscii c && h == '-' &&
      isAlnumAscii d && isAlnumAscii e && isAlnumAscii f && n == '\n'
  | _ => false

/-- `SELECT item_id FROM Item WHERE REPLACE(name, ' ', '') LIKE ?` over the
key columns in table order, `fetchone` keeping the first hit. -/
def lookupIn : List (Int × String) → String → Option Int
  | [], _ => none
  | (iid, nm) :: rest, n =>
    if likeMatch n.data (stripSpaces nm).data then some iid else lookupIn rest n

/-- The key columns of `Item` the lookup reads, in table order. -/
def itemKeys (db : TradeDB) : List (Int × String) :=
  db.items.map (fun it => (it.item_id, it.name))

/-- The commodity-name-to-item lookup of the listener. -/
def lookupItemId (db : TradeDB) (n : String) : Option Int :=
  lookupIn (itemKeys db) n

/-- One iteration of the commodity loop: look the name up; on a hit run the
`StationItem` `UPDATE` (all rows with that station and item id) and the
`Item` `UPDATE` (all rows with that item id); on a miss do nothing. -/
def applyCommodity (marketId : Int) (ts : String) (db : TradeDB) (c : Commodity) :
    TradeDB :=
  match lookupItemId db c.name with
  | none => db
  | some iid =>
    { db with
      stationItems := db.stationItems.map (fun r =>
        if r.station_id == marketId && r.item_id == iid then
          { r with demand_price := c.sellPrice, demand_units := c.demand,
                   demand_level := 0, supply_price := c.buyPrice,
                   supply_units := c.stock, supply_level := 0,
                   modified := ts, from_live := 1 }
        else r),
      items := db.items.map (fun it =>
        if it.item_id == iid then { it with avg_price := c.meanPrice } else it) }

/-- The whole commodity loop over the message's commodity list. -/
def applyCommodities (marketId : Int) (ts : String) (db : TradeDB)
    (l : List Commodity) : TradeDB :=
  l.foldl (applyCommodity marketId ts) db

/-- Errors a worker catches while handling one message. -/
inductive PErr where
  | timestampError
  | typeError
deriving DecidableEq, Repr

/-- The commodity branch of `process_message`: skip carriers, normalize the
timestamp (a `strptime` failure is caught before any write), then run the
commodity loop and commit. -/
def processCommodityMsg (db : TradeDB) (msg : CommodityMessage) :
    TradeDB × Option PErr :=
  if is_carrier msg.stationName then (db, none)
  else
    match parseWireTS msg.timestamp with
    | none => (db, some .timestampError)
    | some dt => (applyCommodities msg.marketId (fmtDT dt) db msg.commodities, none)

/-- Python truthiness of an optional string: `None` and `""` are falsy. -/
def pyTruthy : Option String → Bool
  | none => false
  | some s => !s.isEmpty

/-- The system-event filter
`Population > 0 and (ControllingPower or PowerplayState == 'Unoccupied')`;
a `None` population makes `None > 0` raise `TypeError`, modelled as `none`. -/
def systemFilter (m : FSDJumpMessage) : Option Bool :=
  match m.Population with
  | none => none
  | some p =>
    some (decide (p > 0) &&
      (pyTruthy m.ControllingPower || m.PowerplayState == some "Unoccupied"))

/-- The system branch of `process_message`: filter, normalize the timestamp
(`strptime(None, ...)` raises `TypeError`), then
`UPDATE System SET power = ?, modified = ? WHERE name LIKE ?` with the
controlling power (null when absent) and the star-system name as pattern. -/
def processSystemMsg (db : TradeDB) (m : FSDJumpMessage) : TradeDB × Option PErr :=
  match systemFilter m with
  | none => (db, some .typeError)
  | some false => (db, none)
  | some true =>
    match m.timestamp with
    | none => (db, some .typeError)
    | some wts =>
      match parseWireTS wts with
      | none => (db, some .timestampError)
      | some dt =>
        ({ db with systems := db.systems.map (fun r =>
            if likeMatch m.StarSystem.data r.name.data then
              { r with power := m.ControllingPower, modified := fmtDT dt }
            else r) }, none)

/-- A message after deserialization, as the worker dispatches on it. -/
inductive ParsedMsg where
  | commodity (m : CommodityMessage)
  | system (m : FSDJumpMessage)
deriving DecidableEq, Repr

/-- Processing of one parsed message. -/
def processParsed (db : TradeDB) : ParsedMsg → TradeDB × Option PErr
  | .commodity m => processCommodityMsg db m
  | .system m => processSystemMsg db m

/-- Sequential processing of a list of messages: every per-message error is
caught and reported, the worker carries on with the next message. -/
def processList (db : TradeDB) (l : List ParsedMsg) : TradeDB :=
  l.foldl (fun d m => (processParsed d m).1) db

/-- Where the classifier routes a decoded payload. -/
inductive Route where
  | commodity
  | system
  | discard
deriving DecidableEq, Repr

/-- Classification of a decoded payload: the `if 'commodity' in json_string /
elif 'journal' in json_string and 'FSDJump' in json_string / else` cascade. -/
def classify (s : String) : Route :=
  if strContains s "commodity" then .commodity
  else if strContains s "journal" && strContains s "FSDJump" then .system
  else .discard

/-- The decoded-payload stage of the worker: route, deserialize with the
given decoders (the external `from_json`), process; an unroutable payload is
dropped with no error and no store access. -/
def processPayload (decC : String → Option CommodityMessage)
    (decS : String → Option FSDJumpMessage) (db : TradeDB) (s : String) :
    TradeDB × Option PErr :=
  match classify s with
  | .commodity =>
    match decC s with
    | none => (db, none)
    | some m => processCommodityMsg db m
  | .system =>
    match decS s with
    | none => (db, none)
    | some m => processSystemMsg db m
  | .discard => (db, none)

/-- One worker's loop, `while run_loop: ... get(timeout) ...`.  The first
argument is the sequence of values of the shared `run_loop` flag the worker
observes at its successive `while` checks; the queue holds frames and `none`
sentinels.  Returns the frames this worker processed and the queue contents
it left behind.  A `false` flag ends the loop at once; a sentinel ends it
after being consumed; an empty queue (`queue.Empty` timeout) just loops. -/
def workerRun : List Bool → List (Option String) → List String × List (Option String)
  | [], q => ([], q)
  | false :: _, q => ([], q)
  | true :: flags, [] =>
    workerRun flags []
  | true :: _, none :: qrest => ([], qrest)
  | true :: flags, some frame :: qrest =>
    let r := workerRun flags qrest
    (frame :: r.1, r.2)

/-- The shutdown sequence of `__main__`: after the subscriber thread exits,
one sentinel per worker is appended to the queue. -/
def enqueueSentinels (numWorkers : Nat) (q : List (Option String)) :
    List (Option String) :=
  q ++ List.replicate numWorkers none

/-! ## Views used by the proofs -/

/-- The effect of one commodity-loop iteration on one `Item` row, given the
resolved lookup result paired with the commodity. -/
def itemStep (a : Option Int × Commodity) (it : Item) : Item :=
  match a.1 with
  | none => it
  | some iid =>
    if it.item_id == iid then { it with avg_price := a.2.meanPrice } else it

/-- The effect of one commodity-loop iteration on one `StationItem` row,
given the resolved lookup result paired with the commodity. -/
def siStep (marketId : Int) (ts : String) (a : Option Int × Commodity)
    (r : StationItem) : StationItem :=
  match a.1 with
  | none => r
  | some iid =>
    if r.station_id == marketId && r.item_id == iid then
      { r with demand_price := a.2.sellPrice, demand_units := a.2.demand,
               demand_level := 0, supply_price := a.2.buyPrice,
               supply_units := a.2.stock, supply_level := 0,
               modified := ts, from_live := 1 }
    else r

/-- The lookup results of a commodity list against a fixed store, paired
with the commodities. -/
def actsOf (db : TradeDB) (l : List Commodity) : List (Option Int × Commodity) :=
  l.map (fun c => (lookupItemId db c.name, c))

/-! ## Definitions modelled from the spec's words, for comparison -/

/-- ASCII digit test. -/
def isDigitA (c : Char) : Bool := '0' ≤ c && c ≤ '9'

/-- Modelled from the spec: the carrier-station pattern as the spec words
it — exactly three alphanumeric characters, a hyphen, three alphanumeric
characters, anchored at both ends. -/
def specCarrierShape (s : String) : Bool :=
  match s.data with
  | [a, b, c, h, d, e, f] =>
    isAlnumAscii a && isAlnumAscii b && isAlnumAscii c && h == '-' &&
      isAlnumAscii d && isAlnumAscii e && isAlnumAscii f
  | _ => false

/-- The carrier pattern followed by a single trailing newline — the extra
strings Python's `$` lets `re.match` accept. -/
def specCarrierShapeNl (s : String) : Bool :=
  match s.data with
  | [a, b, c, h, d, e, f, n] =>
    isAlnumAscii a && isAlnumAscii b && isAlnumAscii c && h == '-' &&
      isAlnumAscii d && isAlnumAscii e && isAlnumAscii f && n == '\n'
  | _ => false

/-- Modelled from the spec: wire names match store names when equal after
disregarding spaces, case-insensitively. -/
def specNamesMatch (wire store : String) : Bool :=
  (stripSpaces wire).data.map lowerAscii == (stripSpaces store).data.map lowerAscii

/-- Modelled from the spec: the wire timestamp format `yyyy-mm-ddThh:mm:ssZ`
read literally — four digits, `-`, two digits, `-`, two digits, `T`, two
digits, `:`, two digits, `:`, two digits, `Z`. -/
def specWireFormat (s : String) : Bool :=
  match s.data with
  | [y1, y2, y3, y4, s1, m1, m2, s2, d1, d2, t1,
     h1, h2, c1, i1, i2, c2, e1, e2, z1] =>
    isDigitA y1 && isDigitA y2 && isDigitA y3 && isDigitA y4 && s1 == '-' &&
      isDigitA m1 && isDigitA m2 && s2 == '-' && isDigitA d1 && isDigitA d2 &&
      t1 == 'T' && isDigitA h1 && isDigitA h2 && c1 == ':' && isDigitA i1 &&
      isDigitA i2 && c2 == ':' && isDigitA e1 && isDigitA e2 && z1 == 'Z'
  | _ => false

/-! ## Helper lemmas -/

theorem itemKeys_applyCommodity (m : Int) (ts : String) (db : TradeDB)
    (c : Commodity) : itemKeys (applyCommodity m ts db c) = itemKeys db := by
  unfold applyCommodity
  cases h : lookupItemId db c.name with
  | none => rfl
  | some iid =>
    simp only [itemKeys, List.map_map]
    apply List.map_congr_left
    intro it _
    by_cases hit : it.item_id == iid <;> simp [Function.comp, hit]

theorem lookupItemId_applyCommodity (m : Int) (ts : String) (db : TradeDB)
    (c : Commodity) (n : String) :
    lookupItemId (applyCommodity m ts db c) n = lookupItemId db n := by
  unfold lookupItemId
  rw [itemKeys_applyCommodity]

theorem itemKeys_applyCommodities (m : Int) (ts : String) :
    ∀ (l : List Commodity) (db : TradeDB),
      itemKeys (applyCommodities m ts db l) = itemKeys db := by
  intro l
  induction l with
  | nil => intro db; rfl
  | cons c l ih =>
    intro db
    show itemKeys (applyCommodities m ts (applyCommodity m ts db c) l) = _
    rw [ih, itemKeys_applyCommodity]

theorem lookupItemId_applyCommodities (m : Int) (ts : String)
    (l : List Commodity) (db : TradeDB) (n : String) :
    lookupItemId (applyCommodities m ts db l) n = lookupItemId db n := by
  unfold lookupItemId
  rw [itemKeys_applyCommodities]

theorem applyCommodity_of_lookup_none (m : Int) (ts : String) (db : TradeDB)
    (c : Commodity) (h : lookupItemId db c.name = none) :
    applyCommodity m ts db c = db := by
  unfold applyCommodity
  rw [h]

theorem actsOf_applyCommodity (m : Int) (ts : String) (db : TradeDB)
    (c : Commodity) (l : List Commodity) :
    actsOf (applyCommodity m ts db c) l = actsOf db l := by
  unfold actsOf
  simp only [lookupItemId_applyCommodity]

/-- Generic congruence for folds of key-determined overwrite steps: starting
from two states with the same key, the fold either lands both in the same
state or touches neither. -/
theorem foldl_key_overwrite_congr {α κ β : Type} (key : α → κ) (step : β → α → α)
    (hdet : ∀ b a a', key a = key a' →
      step b a = step b a' ∨ (step b a = a ∧ step b a' = a')) :
    ∀ (l : List β) (a a' : α), key a = key a' →
      l.foldl (fun x b => step b x) a = l.foldl (fun x b => step b x) a' ∨
        (l.foldl (fun x b => step b x) a = a ∧
          l.foldl (fun x b => step b x) a' = a') := by
  intro l
  induction l with
  | nil => intro a a' _; right; exact ⟨rfl, rfl⟩
  | cons b l ih =>
    intro a a' hk
    rcases hdet b a a' hk with heq | ⟨ha, ha'⟩
    · left
      show l.foldl _ (step b a) = l.foldl _ (step b a')
      rw [heq]
    · show l.foldl _ (step b a) = l.foldl _ (step b a') ∨
        (l.foldl _ (step b a) = a ∧ l.foldl _ (step b a') = a')
      rw [ha, ha']
      exact ih a a' hk

theorem foldl_key_pres {α κ β : Type} (key : α → κ) (step : β → α → α)
    (hkey : ∀ b a, key (step b a) = key a) :
    ∀ (l : List β) (a : α), key (l.foldl (fun x b => step b x) a) = key a := by
  intro l
  induction l with
  | nil => intro a; rfl
  | cons b l ih =>
    intro a
    show key (l.foldl _ (step b a)) = key a
    rw [ih, hkey]

/-- Generic idempotence for folds of key-determined overwrite steps. -/
theorem foldl_key_overwrite_idem {α κ β : Type} (key : α → κ) (step : β → α → α)
    (hkey : ∀ b a, key (step b a) = key a)
    (hdet : ∀ b a a', key a = key a' →
      step b a = step b a' ∨ (step b a = a ∧ step b a' = a'))
    (l : List β) (a : α) :
    l.foldl (fun x b => step b x) (l.foldl (fun x b => step b x) a) =
      l.foldl (fun x b => step b x) a := by
  rcases foldl_key_overwrite_congr key step hdet l
      (l.foldl (fun x b => step b x) a) a
      (foldl_key_pres key step hkey l a) with h | ⟨h1, _⟩
  · exact h
  · exact h1

/-- The commodity loop, viewed per row: each `Item` row undergoes the fold of
the resolved per-commodity steps, with all lookups resolved against the
initial store (the loop's own writes never change the columns the lookup
reads). -/
theorem applyCommodities_decomp (m : Int) (ts : String) :
    ∀ (l : List Commodity) (db : TradeDB),
      applyCommodities m ts db l =
        { items := db.items.map
            (fun it => (actsOf db l).foldl (fun x a => itemStep a x) it),
          stationItems := db.stationItems.map
            (fun r => (actsOf db l).foldl (fun x a => siStep m ts a x) r),
          systems := db.systems } := by
  intro l
  induction l with
  | nil =>
    intro db
    simp only [applyCommodities, List.foldl_nil, actsOf, List.map_nil]
    cases db with
    | mk items stationItems systems => simp
  | cons c l ih =>
    intro db
    show applyCommodities m ts (applyCommodity m ts db c) l = _
    rw [ih (applyCommodity m ts db c), actsOf_applyCommodity]
    have hacts : actsOf db (c :: l) =
        (lookupItemId db c.name, c) :: actsOf db l := rfl
    rw [hacts]
    cases h : lookupItemId db c.name with
    | none =>
      rw [applyCommodity_of_lookup_none m ts db c h]
      have hi : ∀ it : Item, itemStep (none, c) it = it := fun _ => rfl
      have hs : ∀ r : StationItem, siStep m ts (none, c) r = r := fun _ => rfl
      simp only [List.foldl_cons, hi, hs]
    | some iid =>
      have hitems : (applyCommodity m ts db c).items =
          db.items.map (fun it => itemStep (some iid, c) it) := by
        unfold applyCommodity
        rw [h]
        rfl
      have hsi : (applyCommodity m ts db c).stationItems =
          db.stationItems.map (fun r => siStep m ts (some iid, c) r) := by
        unfold applyCommodity
        rw [h]
        rfl
      have hsys : (applyCommodity m ts db c).systems = db.systems := by
        unfold applyCommodity
        rw [h]
      rw [hitems, hsi, hsys]
      simp only [List.map_map, List.foldl_cons]
      rfl

/-- Per-row idempotence of the `Item` steps of one message. -/
theorem itemStep_fold_idem (acts : List (Option Int × Commodity)) (it : Item) :
    acts.foldl (fun x a => itemStep a x) (acts.foldl (fun x a => itemStep a x) it) =
      acts.foldl (fun x a => itemStep a x) it := by
  apply foldl_key_overwrite_idem (fun it : Item => (it.item_id, it.name))
  · intro a x
    cases a with
    | mk o c =>
      cases o with
      | none => rfl
      | some iid =>
        show ((if x.item_id == iid then _ else x).item_id, _) = _
        by_cases hx : x.item_id == iid <;> simp [itemStep, hx]
  · intro a x x' hk
    cases a with
    | mk o c =>
      cases o with
      | none => right; exact ⟨rfl, rfl⟩
      | some iid =>
        have hid : x.item_id = x'.item_id := congrArg Prod.fst hk
        have hnm : x.name = x'.name := congrArg Prod.snd hk
        by_cases hx : x.item_id == iid
        · left
          show (if x.item_id == iid then _ else x) =
            (if x'.item_id == iid then _ else x')
          rw [if_pos hx, if_pos (by rw [← hid]; exact hx)]
          cases x with
          | mk i n p =>
            cases x' with
            | mk i' n' p' =>
              simp only at hid hnm
              simp [hid, hnm]
        · right
          constructor
          · show (if x.item_id == iid then _ else x) = x
            rw [if_neg hx]
          · show (if x'.item_id == iid then _ else x') = x'
            rw [if_neg (by rw [← hid]; exact hx)]

/-- Per-row idempotence of the `StationItem` steps of one message. -/
theorem siStep_fold_idem (m : Int) (ts : String)
    (acts : List (Option Int × Commodity)) (r : StationItem) :
    acts.foldl (fun x a => siStep m ts a x)
        (acts.foldl (fun x a => siStep m ts a x) r) =
      acts.foldl (fun x a => siStep m ts a x) r := by
  apply foldl_key_overwrite_idem
    (fun r : StationItem => (r.station_id, r.item_id))
  · intro a x
    cases a with
    | mk o c =>
      cases o with
      | none => rfl
      | some iid =>
        show ((if x.station_id == m && x.item_id == iid then _ else x).station_id, _) = _
        by_cases hx : x.station_id == m && x.item_id == iid <;> simp [siStep, hx]
  · intro a x x' hk
    cases a with
    | mk o c =>
      cases o with
      | none => right; exact ⟨rfl, rfl⟩
      | some iid =>
        have hsid : x.station_id = x'.station_id := congrArg Prod.fst hk
        have hid : x.item_id = x'.item_id := congrArg Prod.snd hk
        by_cases hx : x.station_id == m && x.item_id == iid
        · left
          show (if x.station_id == m && x.item_id == iid then _ else x) =
            (if x'.station_id == m && x'.item_id == iid then _ else x')
          rw [if_pos hx, if_pos (by rw [← hsid, ← hid]; exact hx)]
          cases x with
          | mk a1 a2 a3 a4 a5 a6 a7 a8 a9 a10 =>
            cases x' with
            | mk b1 b2 b3 b4 b5 b6 b7 b8 b9 b10 =>
              simp only at hsid hid
              simp [hsid, hid]
        · right
          constructor
          · show (if x.station_id == m && x.item_id == iid then _ else x) = x
            rw [if_neg hx]
          · show (if x'.station_id == m && x'.item_id == iid then _ else x') = x'
            rw [if_neg (by rw [← hsid, ← hid]; exact hx)]

/-- Applying the commodity loop of one message twice is the same as applying
it once. -/
theorem applyCommodities_idem (m : Int) (ts : String) (l : List Commodity)
    (db : TradeDB) :
    applyCommodities m ts (applyCommodities m ts db l) l =
      applyCommodities m ts db l := by
  have hacts : actsOf (applyCommodities m ts db l) l = actsOf db l := by
    unfold actsOf
    simp only [lookupItemId_applyCommodities]
  rw [applyCommodities_decomp m ts l (applyCommodities m ts db l), hacts]
  rw [applyCommodities_decomp m ts l db]
  simp only [List.map_map]
  congr 1
  · apply List.map_congr_left
    intro it _
    exact itemStep_fold_idem (actsOf db l) it
  · apply List.map_congr_left
    intro r _
    exact siStep_fold_idem m ts (actsOf db l) r

/-- The fuel of `likeMatchF` is irrelevant once it exceeds pattern length
plus subject length. -/
theorem likeMatchF_fuel_irrel :
    ∀ (f g : Nat) (p s : List Char), p.length + s.length < f →
      p.length + s.length < g → likeMatchF f p s = likeMatchF g p s := by
  intro f
  induction f with
  | zero => intro g p s hf _; omega
  | succ f ihf =>
    intro g p s hf hg
    cases g with
    | zero => omega
    | succ g =>
      cases p with
      | nil => rfl
      | cons q qs =>
        simp only [List.length_cons] at hf hg
        show (if q = '%' then _ else _) = (if q = '%' then _ else _)
        by_cases hq : q = '%'
        · rw [if_pos hq, if_pos hq]
          cases s with
          | nil =>
            exact ihf g qs [] (by simpa using hf) (by simpa using hg)
          | cons c cs =>
            simp only [List.length_cons] at hf hg
            show (likeMatchF f qs (c :: cs) || likeMatchF f ('%' :: qs) cs) =
              (likeMatchF g qs (c :: cs) || likeMatchF g ('%' :: qs) cs)
            rw [ihf g qs (c :: cs) (by simp; omega) (by simp; omega),
              ihf g ('%' :: qs) cs (by simp; omega) (by simp; omega)]
        · rw [if_neg hq, if_neg hq]
          cases s with
          | nil => rfl
          | cons c cs =>
            simp only [List.length_cons] at hf hg
            show (if q = '_' then likeMatchF f qs cs
                else (lowerAscii q == lowerAscii c) && likeMatchF f qs cs) =
              (if q = '_' then likeMatchF g qs cs
                else (lowerAscii q == lowerAscii c) && likeMatchF g qs cs)
            by_cases hu : q = '_'
            · rw [if_pos hu, if_pos hu]
              exact ihf g qs cs (by omega) (by omega)
            · rw [if_neg hu, if_neg hu,
                ihf g qs cs (by omega) (by omega)]

/-- Unfolding `likeMatch` at any sufficient fuel. -/
theorem likeMatchF_eq_likeMatch (f : Nat) (p s : List Char)
    (h : p.length + s.length < f) : likeMatchF f p s = likeMatch p s :=
  likeMatchF_fuel_irrel f (p.length + s.length + 1) p s h (by omega)

/-- A `LIKE` pattern without wildcards matches exactly the ASCII-case-folded
equal strings. -/
theorem likeMatch_no_wildcards :
    ∀ (p s : List Char), (∀ c ∈ p, ¬(c = '%' ∨ c = '_')) →
      likeMatch p s = (p.map lowerAscii == s.map lowerAscii) := by
  intro p
  induction p with
  | nil =>
    intro s _
    cases s with
    | nil => rfl
    | cons c cs => rfl
  | cons q qs ih =>
    intro s hw
    have hq := hw q (List.mem_cons_self q qs)
    have hq1 : ¬(q = '%') := fun h => hq (Or.inl h)
    have hq2 : ¬(q = '_') := fun h => hq (Or.inr h)
    have hqs : ∀ c ∈ qs, ¬(c = '%' ∨ c = '_') := fun c hc =>
      hw c (List.mem_cons_of_mem q hc)
    cases s with
    | nil =>
      show (if q = '%' then _ else false) = _
      rw [if_neg hq1]
      rfl
    | cons c cs =>
      show (if q = '%' then _
        else if q = '_' then likeMatchF ((q :: qs).length + (c :: cs).length) qs cs
        else (lowerAscii q == lowerAscii c) &&
          likeMatchF ((q :: qs).length + (c :: cs).length) qs cs) = _
      rw [if_neg hq1, if_neg hq2,
        likeMatchF_eq_likeMatch ((q :: qs).length + (c :: cs).length) qs cs
          (by simp; omega),
        ih cs hqs]
      rfl

/-- Skipping a commodity whose name matches no store item: the commodity loop
on a list with the unmatched commodity removed gives the same store. -/
theorem applyCommodities_skip_unmatched (m : Int) (ts : String) (db : TradeDB)
    (c : Commodity) (l1 l2 : List Commodity)
    (h : lookupItemId db c.name = none) :
    applyCommodities m ts db (l1 ++ c :: l2) =
      applyCommodities m ts db (l1 ++ l2) := by
  unfold applyCommodities
  rw [List.foldl_append, List.foldl_append]
  show applyCommodities m ts
      (applyCommodity m ts (applyCommodities m ts db l1) c) l2 =
    applyCommodities m ts (applyCommodities m ts db l1) l2
  rw [applyCommodity_of_lookup_none]
  rw [lookupItemId_applyCommodities]
  exact h

/-! ## Claims -/

/-- C1: for every commodity of an accepted update whose name matches a store
item, applying that commodity's update sets the matching `StationItem` rows'
demand price to the commodity's sell price, demand units to its demand,
supply price to its buy price, supply units to its stock, both level fields
to zero, `modified` to the normalized timestamp, `from_live` to 1, leaves
every other `StationItem` row unchanged, and separately sets the matching
`Item` rows' average price to the commodity's mean price. -/
theorem c1_update_sets_fields (db : TradeDB) (marketId iid : Int)
    (wts : String) (dt : DT) (c : Commodity)
    (_hts : parseWireTS wts = some dt)
    (hlk : lookupItemId db c.name = some iid) :
    (applyCommodity marketId (fmtDT dt) db c).stationItems =
      db.stationItems.map (fun r =>
        if r.station_id = marketId ∧ r.item_id = iid then
          { r with demand_price := c.sellPrice, demand_units := c.demand,
                   demand_level := 0, supply_price := c.buyPrice,
                   supply_units := c.stock, supply_level := 0,
                   modified := fmtDT dt, from_live := 1 }
        else r) ∧
    (applyCommodity marketId (fmtDT dt) db c).items =
      db.items.map (fun it =>
        if it.item_id = iid then { it with avg_price := c.meanPrice } else it) ∧
    (applyCommodity marketId (fmtDT dt) db c).systems = db.systems := by
  unfold applyCommodity
  rw [hlk]
  refine ⟨?_, ?_, rfl⟩
  · apply List.map_congr_left
    intro r _
    by_cases h1 : r.station_id = marketId <;> by_cases h2 : r.item_id = iid <;>
      simp [h1, h2]
  · apply List.map_congr_left
    intro it _
    by_cases h : it.item_id = iid <;> simp [h]

/-- Witness for C1 at the spec's concrete numbers: sell 1500, demand 200,
buy 1200, stock 50, timestamp `2024-01-01T12:00:00Z` normalized to
`2024-01-01 12:00:00`, and the item's average price set to the mean price. -/
theorem c1_witness :
    parseWireTS "2024-01-01T12:00:00Z" = some ⟨2024, 1, 1, 12, 0, 0⟩ ∧
    fmtDT ⟨2024, 1, 1, 12, 0, 0⟩ = "2024-01-01 12:00:00" ∧
    (applyCommodity 128 (fmtDT ⟨2024, 1, 1, 12, 0, 0⟩)
        ⟨[⟨7, "Tritium", 0⟩], [⟨128, 7, 0, 0, 3, 0, 0, 2, "old", 0⟩], []⟩
        ⟨"tritium", 1300, 1200, 50, 1500, 200⟩).stationItems =
      [⟨128, 7, 1500, 200, 0, 1200, 50, 0, "2024-01-01 12:00:00", 1⟩] ∧
    (applyCommodity 128 (fmtDT ⟨2024, 1, 1, 12, 0, 0⟩)
        ⟨[⟨7, "Tritium", 0⟩], [⟨128, 7, 0, 0, 3, 0, 0, 2, "old", 0⟩], []⟩
        ⟨"tritium", 1300, 1200, 50, 1500, 200⟩).items =
      [⟨7, "Tritium", 1300⟩] := by
  have h := c1_update_sets_fields
    ⟨[⟨7, "Tritium", 0⟩], [⟨128, 7, 0, 0, 3, 0, 0, 2, "old", 0⟩], []⟩
    128 7 "2024-01-01T12:00:00Z" ⟨2024, 1, 1, 12, 0, 0⟩
    ⟨"tritium", 1300, 1200, 50, 1500, 200⟩ (by decide) (by decide)
  refine ⟨by decide, by decide, ?_, ?_⟩
  · rw [h.1]; decide
  · rw [h.2.1]; decide

/-- C2: the system-event filter accepts exactly the events with positive
population and either a (truthy) controlling power or powerplay state
`Unoccupied`; population 0 is always rejected, population 1000000 with
controlling power `Federation` accepted, with no power and state
`Unoccupied` accepted, with no power and state `Controlled` rejected. -/
theorem c2_system_filter :
    (∀ m : FSDJumpMessage, systemFilter m = some true ↔
        ((∃ p, m.Population = some p ∧ 0 < p) ∧
          (pyTruthy m.ControllingPower = true ∨
            m.PowerplayState = some "Unoccupied"))) ∧
    (∀ sys ts cp pps, systemFilter ⟨sys, ts, some 0, cp, pps⟩ = some false) ∧
    (∀ sys ts pps,
      systemFilter ⟨sys, ts, some 1000000, some "Federation", pps⟩ = some true) ∧
    (∀ sys ts,
      systemFilter ⟨sys, ts, some 1000000, none, some "Unoccupied"⟩ = some true) ∧
    (∀ sys ts,
      systemFilter ⟨sys, ts, some 1000000, none, some "Controlled"⟩ = some false) := by
  refine ⟨?_, ?_, ?_, ?_, ?_⟩
  · intro m
    unfold systemFilter
    cases hp : m.Population with
    | none => simp
    | some p => simp
  · intro sys ts cp pps
    unfold systemFilter
    simp
  · intro sys ts pps
    unfold systemFilter
    simp [pyTruthy]
    exact Or.inl (by decide)
  · intro sys ts
    unfold systemFilter
    simp [pyTruthy]
  · intro sys ts
    unfold systemFilter
    simp [pyTruthy]

/-- C3 counterexample: Python's `$` also matches just before a newline that
ends the string, so `re.match(r'^[a-zA-Z0-9]{3}-[a-zA-Z0-9]{3}$', s)`
accepts `"ABC-123\n"`, which does not consist of three alphanumerics, a
hyphen and three alphanumerics. -/
theorem c3_counterexample :
    is_carrier "ABC-123\n" = true ∧ specCarrierShape "ABC-123\n" = false := by
  exact ⟨by decide, by decide⟩

/-- C3 amended: the carrier filter rejects exactly the station names that
are three alphanumerics, a hyphen and three alphanumerics, or that pattern
followed by a single trailing newline; `ABC-123` and `Q1X-9YZ` are rejected,
`Jameson Memorial` passes, and a carrier-named station's update is dropped
with no store access and no error. -/
theorem c3_amended_carrier (s : String) :
    (is_carrier s = (specCarrierShape s || specCarrierShapeNl s)) ∧
    is_carrier "ABC-123" = true ∧ is_carrier "Q1X-9YZ" = true ∧
    is_carrier "Jameson Memorial" = false ∧
    (∀ (db : TradeDB) (msg : CommodityMessage),
      is_carrier msg.stationName = true → processCommodityMsg db msg = (db, none)) := by
  refine ⟨?_, by decide, by decide, by decide, ?_⟩
  · rcases s with ⟨l⟩
    rcases l with _ | ⟨a, _ | ⟨b, _ | ⟨c, _ | ⟨h, _ | ⟨d, _ | ⟨e, _ | ⟨f,
      _ | ⟨n, _ | ⟨o, rest⟩⟩⟩⟩⟩⟩⟩⟩⟩ <;>
      simp [is_carrier, specCarrierShape, specCarrierShapeNl]
  · intro db msg hcar
    unfold processCommodityMsg
    rw [hcar]
    rfl

/-- Witness for C3 at a carrier-named station: the message is dropped with
the store untouched. -/
theorem c3_witness :
    processCommodityMsg ⟨[⟨1, "Gold", 5⟩], [], []⟩
        ⟨"HIP 22460", "X7B-2FQ", 1, "2024-01-01T12:00:00Z",
          [⟨"gold", 1, 1, 1, 1, 1⟩]⟩ =
      (⟨[⟨1, "Gold", 5⟩], [], []⟩, none) :=
  (c3_amended_carrier "X7B-2FQ").2.2.2.2 ⟨[⟨1, "Gold", 5⟩], [], []⟩
    ⟨"HIP 22460", "X7B-2FQ", 1, "2024-01-01T12:00:00Z",
      [⟨"gold", 1, 1, 1, 1, 1⟩]⟩ (by decide)

/-- C4 counterexample: the lookup passes the wire name verbatim as the LIKE
pattern and strips spaces from the store name only, so the wire name
`"Tritium "` (trailing space) does not match the store item `"Tritium"`,
although the two are equal after disregarding spaces. -/
theorem c4_counterexample :
    specNamesMatch "Tritium " "Tritium" = true ∧
    lookupItemId ⟨[⟨1, "Tritium", 100⟩], [], []⟩ "Tritium " = none :=
  ⟨by decide, by decide⟩

/-- C4 amended: the lookup is space-insensitive on the store side only — the
wire name is used verbatim as a case-insensitive LIKE pattern against the
store name with its spaces removed, so a wildcard-free wire name matches
exactly when it equals the space-stripped store name ASCII-case-
insensitively; a wire name omitting the store name's spaces matches, a
trailing-space wire name does not. -/
theorem c4_amended (wire store : String)
    (hw : ∀ c ∈ wire.data, ¬(c = '%' ∨ c = '_')) :
    (likeMatch wire.data (stripSpaces store).data = true ↔
      wire.data.map lowerAscii = (stripSpaces store).data.map lowerAscii) ∧
    lookupItemId ⟨[⟨2, "Low Temperature Diamonds", 0⟩], [], []⟩
      "lowtemperaturediamonds" = some 2 ∧
    lookupItemId ⟨[⟨1, "Tritium", 100⟩], [], []⟩ "Tritium " = none := by
  refine ⟨?_, by decide, by decide⟩
  rw [likeMatch_no_wildcards wire.data (stripSpaces store).data hw]
  exact beq_iff_eq

/-- Witness for C4: the spaceless wire name `lowtemperaturediamonds`
matches the store name `Low Temperature Diamonds`. -/
theorem c4_witness :
    likeMatch "lowtemperaturediamonds".data
      (stripSpaces "Low Temperature Diamonds").data = true :=
  (c4_amended "lowtemperaturediamonds" "Low Temperature Diamonds"
    (by decide)).1.mpr (by decide)

/-- C5: in an accepted commodity message, a commodity whose name matches no
store item is skipped with no write and no error, and the remaining
commodities of the same message are applied exactly as if it were absent. -/
theorem c5_unmatched_skipped (db : TradeDB) (msg : CommodityMessage) (dt : DT)
    (c : Commodity) (l1 l2 : List Commodity)
    (hcar : is_carrier msg.stationName = false)
    (hts : parseWireTS msg.timestamp = some dt)
    (hcm : msg.commodities = l1 ++ c :: l2)
    (hlk : lookupItemId db c.name = none) :
    processCommodityMsg db msg =
      (applyCommodities msg.marketId (fmtDT dt) db (l1 ++ l2), none) := by
  unfold processCommodityMsg
  rw [hcar, hts, hcm]
  simp only [Bool.false_eq_true, if_false]
  rw [applyCommodities_skip_unmatched msg.marketId (fmtDT dt) db c l1 l2 hlk]

/-- Witness for C5: a message whose first commodity is unmatched and whose
second is matched is applied as the one-commodity message. -/
theorem c5_witness :
    processCommodityMsg
        ⟨[⟨3, "Gold", 9⟩], [⟨44, 3, 0, 0, 1, 0, 0, 1, "old", 0⟩], []⟩
        ⟨"Sol", "Daedalus", 44, "2024-01-01T12:00:00Z",
          [⟨"unobtainium", 5, 5, 5, 5, 5⟩, ⟨"gold", 100, 90, 10, 110, 20⟩]⟩ =
      (applyCommodities 44 (fmtDT ⟨2024, 1, 1, 12, 0, 0⟩)
        ⟨[⟨3, "Gold", 9⟩], [⟨44, 3, 0, 0, 1, 0, 0, 1, "old", 0⟩], []⟩
        [⟨"gold", 100, 90, 10, 110, 20⟩], none) :=
  c5_unmatched_skipped
    ⟨[⟨3, "Gold", 9⟩], [⟨44, 3, 0, 0, 1, 0, 0, 1, "old", 0⟩], []⟩
    ⟨"Sol", "Daedalus", 44, "2024-01-01T12:00:00Z",
      [⟨"unobtainium", 5, 5, 5, 5, 5⟩, ⟨"gold", 100, 90, 10, 110, 20⟩]⟩
    ⟨2024, 1, 1, 12, 0, 0⟩ ⟨"unobtainium", 5, 5, 5, 5, 5⟩
    [] [⟨"gold", 100, 90, 10, 110, 20⟩]
    (by decide) (by decide) (by decide) (by decide)

/-- C6 counterexample: `strptime` is lenient about zero padding —
`"2024-1-01T12:00:00Z"` (one-digit month) is not in the wire format
`yyyy-mm-ddThh:mm:ssZ`, yet the message is persisted (with the timestamp
normalized to `"2024-01-01 12:00:00"`) instead of failing with zero
writes. -/
theorem c6_counterexample :
    specWireFormat "2024-1-01T12:00:00Z" = false ∧
    processCommodityMsg
        ⟨[⟨7, "Tritium", 0⟩], [⟨128, 7, 0, 0, 3, 0, 0, 2, "old", 0⟩], []⟩
        ⟨"Sol", "Abraham Lincoln", 128, "2024-1-01T12:00:00Z",
          [⟨"tritium", 1300, 1200, 50, 1500, 200⟩]⟩ =
      (⟨[⟨7, "Tritium", 1300⟩],
        [⟨128, 7, 1500, 200, 0, 1200, 50, 0, "2024-01-01 12:00:00", 1⟩], []⟩,
        none) ∧
    (⟨[⟨7, "Tritium", 1300⟩],
      [⟨128, 7, 1500, 200, 0, 1200, 50, 0, "2024-01-01 12:00:00", 1⟩], []⟩ :
        TradeDB) ≠
      ⟨[⟨7, "Tritium", 0⟩], [⟨128, 7, 0, 0, 3, 0, 0, 2, "old", 0⟩], []⟩ :=
  ⟨by decide, by decide, by decide⟩

/-- C6 amended: a timestamp rejected by the lenient `strptime` parse (four-
digit year, one-or-two-digit month/day/hour/minute/second within calendar
ranges, literal `-` and `:`, with `T` and `Z` matched case-insensitively)
fails the message with a timestamp error before any write and leaves the
processing of every other message unchanged; an accepted timestamp is
normalized by `strftime` to the zero-padded store format and is the string
every write of the message carries.  The rejection direction is stated for
ASCII timestamps, where the embedded parse coincides exactly with
`strptime`; non-ASCII Unicode digit spellings are outside the embedding. -/
theorem c6_amended (db : TradeDB) (msg : CommodityMessage)
    (pre post : List ParsedMsg)
    (hcar : is_carrier msg.stationName = false)
    (_hascii : msg.timestamp.data.all (fun c => c.toNat < 128) = true)
    (hts : parseWireTS msg.timestamp = none) :
    processCommodityMsg db msg = (db, some .timestampError) ∧
    processList db (pre ++ .commodity msg :: post) = processList db (pre ++ post) ∧
    (∀ (db' : TradeDB) (msg' : CommodityMessage) (dt : DT),
      is_carrier msg'.stationName = false →
      parseWireTS msg'.timestamp = some dt →
      processCommodityMsg db' msg' =
        (applyCommodities msg'.marketId (fmtDT dt) db' msg'.commodities, none)) := by
  have hfail : ∀ d : TradeDB, processCommodityMsg d msg = (d, some .timestampError) := by
    intro d
    unfold processCommodityMsg
    rw [hcar, hts]
    simp only [Bool.false_eq_true, if_false]
  refine ⟨hfail db, ?_, ?_⟩
  · unfold processList
    rw [List.foldl_append, List.foldl_append]
    show List.foldl _ (processParsed _ (.commodity msg)).1 post = _
    rw [show (processParsed (List.foldl (fun d m => (processParsed d m).1) db pre)
      (.commodity msg)).1 = List.foldl (fun d m => (processParsed d m).1) db pre from
      by rw [show processParsed (List.foldl (fun d m => (processParsed d m).1) db pre)
        (.commodity msg) = processCommodityMsg
          (List.foldl (fun d m => (processParsed d m).1) db pre) msg from rfl,
        hfail]]
  · intro db' msg' dt hcar' hts'
    unfold processCommodityMsg
    rw [hcar', hts']
    simp only [Bool.false_eq_true, if_false]

/-- Witness for C6: a month-13 timestamp fails with a timestamp error and
the store untouched, while a lower-case `t`/`z` timestamp is accepted and
persisted with the normalized zero-padded string. -/
theorem c6_witness :
    processCommodityMsg ⟨[⟨7, "Tritium", 0⟩], [], []⟩
        ⟨"Sol", "Coriolis", 1, "2024-13-01T00:00:00Z",
          [⟨"tritium", 1, 1, 1, 1, 1⟩]⟩ =
      (⟨[⟨7, "Tritium", 0⟩], [], []⟩, some .timestampError) ∧
    processCommodityMsg ⟨[⟨7, "Tritium", 0⟩], [], []⟩
        ⟨"Sol", "Coriolis", 1, "2024-01-01t12:00:00z",
          [⟨"tritium", 9, 8, 7, 6, 5⟩]⟩ =
      (applyCommodities 1 "2024-01-01 12:00:00" ⟨[⟨7, "Tritium", 0⟩], [], []⟩
        [⟨"tritium", 9, 8, 7, 6, 5⟩], none) := by
  have h := c6_amended ⟨[⟨7, "Tritium", 0⟩], [], []⟩
    ⟨"Sol", "Coriolis", 1, "2024-13-01T00:00:00Z", [⟨"tritium", 1, 1, 1, 1, 1⟩]⟩
    [] [] (by decide) (by decide) (by decide)
  refine ⟨h.1, ?_⟩
  have h3 := h.2.2 ⟨[⟨7, "Tritium", 0⟩], [], []⟩
    ⟨"Sol", "Coriolis", 1, "2024-01-01t12:00:00z", [⟨"tritium", 9, 8, 7, 6, 5⟩]⟩
    ⟨2024, 1, 1, 12, 0, 0⟩ (by decide) (by decide)
  rw [h3]
  rfl

/-- C7: applying the same accepted commodity message a second time leaves
the store exactly where the first application put it — the per-message
persistence operation is idempotent. -/
theorem c7_idempotent (db db1 : TradeDB) (msg : CommodityMessage)
    (h : processCommodityMsg db msg = (db1, none)) :
    processCommodityMsg db1 msg = (db1, none) := by
  unfold processCommodityMsg at h ⊢
  by_cases hcar : is_carrier msg.stationName
  · rw [if_pos hcar]
  · rw [if_neg hcar] at h ⊢
    cases hts : parseWireTS msg.timestamp with
    | none =>
      rw [hts] at h
      have h2 : some PErr.timestampError = (none : Option PErr) :=
        congrArg Prod.snd h
      exact absurd h2 (by simp)
    | some dt =>
      rw [hts] at h
      have hdb : applyCommodities msg.marketId (fmtDT dt) db msg.commodities = db1 :=
        congrArg Prod.fst h
      show (applyCommodities msg.marketId (fmtDT dt) db1 msg.commodities, none) =
        (db1, none)
      rw [← hdb, applyCommodities_idem]

/-- Witness for C7: re-applying the tritium message to the store it already
produced changes nothing. -/
theorem c7_witness :
    processCommodityMsg
        ⟨[⟨7, "Tritium", 1300⟩],
          [⟨128, 7, 1500, 200, 0, 1200, 50, 0, "2024-01-01 12:00:00", 1⟩], []⟩
        ⟨"Sol", "Abraham Lincoln", 128, "2024-01-01T12:00:00Z",
          [⟨"tritium", 1300, 1200, 50, 1500, 200⟩]⟩ =
      (⟨[⟨7, "Tritium", 1300⟩],
        [⟨128, 7, 1500, 200, 0, 1200, 50, 0, "2024-01-01 12:00:00", 1⟩], []⟩,
        none) :=
  c7_idempotent
    ⟨[⟨7, "Tritium", 0⟩], [⟨128, 7, 0, 0, 3, 0, 0, 2, "old", 0⟩], []⟩
    ⟨[⟨7, "Tritium", 1300⟩],
      [⟨128, 7, 1500, 200, 0, 1200, 50, 0, "2024-01-01 12:00:00", 1⟩], []⟩
    ⟨"Sol", "Abraham Lincoln", 128, "2024-01-01T12:00:00Z",
      [⟨"tritium", 1300, 1200, 50, 1500, 200⟩]⟩
    (by decide)

/-- C8: a decoded payload is routed as a commodity update exactly when it
contains `"commodity"`, as a system event exactly when it does not contain
`"commodity"` but contains both `"journal"` and `"FSDJump"`, and is
otherwise discarded silently — no error, no store access, the worker just
proceeds. -/
theorem c8_classification (s : String) :
    (classify s = .commodity ↔ strContains s "commodity" = true) ∧
    (classify s = .system ↔ (strContains s "commodity" = false ∧
      strContains s "journal" = true ∧ strContains s "FSDJump" = true)) ∧
    (classify s = .discard ↔ (strContains s "commodity" = false ∧
      (strContains s "journal" = false ∨ strContains s "FSDJump" = false))) ∧
    (∀ (decC : String → Option CommodityMessage)
       (decS : String → Option FSDJumpMessage) (db : TradeDB),
      classify s = .discard → processPayload decC decS db s = (db, none)) := by
  refine ⟨?_, ?_, ?_, ?_⟩
  · unfold classify
    by_cases h1 : strContains s "commodity" = true <;>
      by_cases h2 : strContains s "journal" = true <;>
      by_cases h3 : strContains s "FSDJump" = true <;>
      simp [h1, h2, h3]
  · unfold classify
    by_cases h1 : strContains s "commodity" = true <;>
      by_cases h2 : strContains s "journal" = true <;>
      by_cases h3 : strContains s "FSDJump" = true <;>
      simp [h1, h2, h3]
  · unfold classify
    by_cases h1 : strContains s "commodity" = true <;>
      by_cases h2 : strContains s "journal" = true <;>
      by_cases h3 : strContains s "FSDJump" = true <;>
      simp [h1, h2, h3]
  · intro decC decS db hdis
    unfold processPayload
    rw [hdis]

/-- Witness for C8: an unroutable payload leaves the store untouched with no
error. -/
theorem c8_witness :
    processPayload (fun _ => none) (fun _ => none) ⟨[], [], []⟩ "hello world" =
      (⟨[], [], []⟩, none) :=
  (c8_classification "hello world").2.2.2 (fun _ => none) (fun _ => none)
    ⟨[], [], []⟩ (by decide)

/-- C9 (the code diverges from the claim): shutdown clears `run_loop`, and a
worker's `while run_loop` check exits before any sentinel is read — having
enqueued one sentinel per worker behind the remaining frame, the worker
stops at once, processing no frame and consuming no sentinel, so the queued
frame is silently discarded. -/
theorem c9_flag_preempts_sentinels :
    enqueueSentinels 1 [some "frame"] = [some "frame", none] ∧
    workerRun [false] (enqueueSentinels 1 [some "frame"]) =
      ([], [some "frame", none]) ∧
    workerRun [true, true] [some "frame", none] = (["frame"], []) :=
  ⟨by decide, by decide, by decide⟩

/-- C10: a system event accepted solely because its powerplay state is
`Unoccupied` while no controlling power is present is still persisted —
every `System` row whose name LIKE-matches the star system has its power
column overwritten with null and its modified column set to the normalized
timestamp. -/
theorem c10_unoccupied_writes_null (db : TradeDB) (m : FSDJumpMessage)
    (p : Int) (wts : String) (dt : DT)
    (hp : m.Population = some p) (hpos : 0 < p)
    (hcp : m.ControllingPower = none)
    (hpps : m.PowerplayState = some "Unoccupied")
    (hts : m.timestamp = some wts)
    (hdt : parseWireTS wts = some dt) :
    processSystemMsg db m =
      ({ db with systems := db.systems.map (fun r =>
          if likeMatch m.StarSystem.data r.name.data then
            { r with power := none, modified := fmtDT dt }
          else r) }, none) := by
  unfold processSystemMsg
  have hacc : systemFilter m = some true := by
    unfold systemFilter
    rw [hp, hcp, hpps]
    simp [pyTruthy, hpos]
  rw [hacc, hts]
  show (match parseWireTS wts with
    | none => (db, some PErr.timestampError)
    | some dt =>
      ({ db with systems := db.systems.map (fun r : SystemRow =>
          if likeMatch m.StarSystem.data r.name.data then
            { r with power := m.ControllingPower, modified := fmtDT dt }
          else r) }, none)) =
    ({ db with systems := db.systems.map (fun r : SystemRow =>
        if likeMatch m.StarSystem.data r.name.data then
          { r with power := none, modified := fmtDT dt }
        else r) }, none)
  rw [hdt, hcp]

/-- Witness for C10: an `Unoccupied` event with no controlling power
overwrites the stored power `Aisling Duval` with null. -/
theorem c10_witness :
    processSystemMsg ⟨[], [], [⟨"Sol", some "Aisling Duval", "old"⟩]⟩
        ⟨"Sol", some "2024-01-01T12:00:00Z", some 1000000, none,
          some "Unoccupied"⟩ =
      (⟨[], [], [⟨"Sol", none, "2024-01-01 12:00:00"⟩]⟩, none) := by
  have h := c10_unoccupied_writes_null
    ⟨[], [], [⟨"Sol", some "Aisling Duval", "old"⟩]⟩
    ⟨"Sol", some "2024-01-01T12:00:00Z", some 1000000, none, some "Unoccupied"⟩
    1000000 "2024-01-01T12:00:00Z" ⟨2024, 1, 1, 12, 0, 0⟩
    rfl (by decide) rfl rfl rfl (by decide)
  rw [h]
  decide

end EDDN
